import Mathlib

/-!
Shallow embedding of the time-management component of this Stockfish fork
(`src/timeman.cpp`): the pure ratio-curve function `remaining<T>` and the
stateful entry point `TimeManagement::init`.  C++ `double` arithmetic is
modelled over `ℝ` (with `Real.exp` for `exp`), machine integers over `ℤ`,
C truncating casts and integer division over `Int.tdiv` and `trunc`.
-/

namespace Timeman

/-- The template parameter `TimeType` of `remaining<T>` selecting the tuned
constant profile (`OptimumTime` or `MaxTime`). -/
inductive TimeType
| OptimumTime
| MaxTime
deriving DecidableEq

/-- Modelled from the spec: the side to move (`Color us`); the `Color` type
itself is declared outside `src/`. -/
inductive Color
| white
| black
deriving DecidableEq

/-- Modelled from the spec: the configuration options read by `init`
(`Options["Move Overhead"]`, `Options["nodestime"]`, `Options["Ponder"]`);
the option store lives outside `src/`. -/
structure EngineOptions where
  moveOverhead : ℤ
  nodestime : ℤ
  ponder : Bool

/-- Modelled from the spec: the per-side time-control record
`Search::LimitsType` (declared outside `src/`); only the fields read or
written by `TimeManagement::init` are modelled: `time[us]`, `inc[us]`,
`npmsec`, `movestogo`, `startTime`. -/
structure LimitsType where
  time : Color → ℤ
  inc : Color → ℤ
  npmsec : ℤ
  movestogo : ℤ
  startTime : ℤ

/-- The persistent state of the `TimeManagement` object: the budgets written
by `init`, the recorded start timestamp, and the per-game `availableNodes`
anchor for nodes-as-time mode. -/
structure TimeManagement where
  startTime : ℤ
  optimumTime : ℤ
  maximumTime : ℤ
  availableNodes : ℤ

/-- The C cast `int(x)` applied to a `double`: truncation toward zero. -/
noncomputable def trunc (x : ℝ) : ℤ :=
  if 0 ≤ x then ⌊x⌋ else ⌈x⌉

/-- `int mn = (ply + 1) / 2;` — current move number for any side
(C integer division truncates toward zero). -/
def mnOf (ply : ℤ) : ℤ :=
  (ply + 1).tdiv 2

/-- `double complexity = 0.2 + double(std::min(npm, inpm)) / inpm;` where
`inpm = 4*(KnightValueMg+BishopValueMg+RookValueMg) + 2*QueenValueMg`.
The piece-value constants are declared outside `src/`, so `inpm` is kept as
a parameter; every theorem below holds for an arbitrary positive `inpm`. -/
noncomputable def complexityOf (inpm npm : ℤ) : ℝ :=
  0.2 + ((min npm inpm : ℤ) : ℝ) / (inpm : ℝ)

/-- The variable `sd`: initialised to `8.5`, reassigned to
`1.0 + 15.0 * mn / (500.0 + mn)` only in the sudden-death branch
(`movesToGo == 0`). -/
noncomputable def sdOf (movesToGo ply : ℤ) : ℝ :=
  if movesToGo ≠ 0 then 8.5
  else 1.0 + 15.0 * (mnOf ply : ℝ) / (500.0 + (mnOf ply : ℝ))

/-- The move-number factor of the `movesToGo` branch:
`mn <= 40 ? 0.45 + 0.064 * mn * exp(-0.052 * mn) : 1.5`. -/
noncomputable def mtgWeight (mn : ℤ) : ℝ :=
  if mn ≤ 40 then 0.45 + 0.064 * (mn : ℝ) * Real.exp (-0.052 * (mn : ℝ))
  else 1.5

/-- `double incUsage = 54 + 44 * exp(-(mn-19) * (mn-19) / 405.0);`
(the product `-(mn-19) * (mn-19)` is computed in machine integers and then
divided by the double `405.0`). -/
noncomputable def incUsageOf (ply : ℤ) : ℝ :=
  54 + 44 * Real.exp (((-(mnOf ply - 19) * (mnOf ply - 19) : ℤ) : ℝ) / 405.0)

/-- The value of the local `TRatio` after both branches of `remaining`:
movesToGo branch: `(T == OptimumTime ? 1.0 : 6.0) / movesToGo * complexity *
mtgWeight mn`; sudden-death branch:
`(T == OptimumTime ? 0.018 : 0.074) * sd * complexity`. -/
noncomputable def tRatioOf (T : TimeType) (inpm movesToGo ply npm : ℤ) : ℝ :=
  if movesToGo ≠ 0 then
    (if T = TimeType.OptimumTime then (1.0 : ℝ) else 6.0) / (movesToGo : ℝ)
      * complexityOf inpm npm * mtgWeight (mnOf ply)
  else
    (if T = TimeType.OptimumTime then (0.018 : ℝ) else 0.074)
      * sdOf movesToGo ply * complexityOf inpm npm

/-- `double ratio = std::min(1.0, TRatio * (1.0 + incUsage * myInc / (myTime * sd)));` -/
noncomputable def ratioOf (T : TimeType) (inpm myTime myInc movesToGo ply npm : ℤ) : ℝ :=
  min 1.0
    (tRatioOf T inpm movesToGo ply npm
      * (1.0 + incUsageOf ply * (myInc : ℝ) / ((myTime : ℝ) * sdOf movesToGo ply)))

/-- `remaining<T>(myTime, myInc, moveOverhead, movesToGo, ply, npm)`:
`int hypMyTime = std::max(0, myTime - moveOverhead); return int(hypMyTime * ratio);`. -/
noncomputable def remaining (T : TimeType) (inpm myTime myInc moveOverhead movesToGo ply npm : ℤ) : ℤ :=
  trunc (((max 0 (myTime - moveOverhead) : ℤ) : ℝ) * ratioOf T inpm myTime myInc movesToGo ply npm)

/-- `TimeManagement::init(limits, us, ply, npm)`.  In nodes-as-time mode
(`nodestime` option nonzero) it first fixes `availableNodes` (only when it is
still `0`) and overwrites `limits.time[us]`, `limits.inc[us]` and
`limits.npmsec`; it then records `startTime`, computes the two budgets with
`remaining`, and applies the Ponder bonus `optimumTime += optimumTime / 4`.
Returns the updated object state and the (possibly mutated) `limits`. -/
noncomputable def init (opts : EngineOptions) (tm : TimeManagement)
    (limits : LimitsType) (us : Color) (ply npm inpm : ℤ) :
    TimeManagement × LimitsType :=
  let npmsec := opts.nodestime
  let an : ℤ :=
    if npmsec ≠ 0 then
      (if tm.availableNodes = 0 then npmsec * limits.time us else tm.availableNodes)
    else tm.availableNodes
  let limits' : LimitsType :=
    if npmsec ≠ 0 then
      { limits with
          time := Function.update limits.time us an,
          inc := Function.update limits.inc us (limits.inc us * npmsec),
          npmsec := npmsec }
    else limits
  let optT := remaining TimeType.OptimumTime inpm (limits'.time us) (limits'.inc us)
      opts.moveOverhead limits'.movestogo ply npm
  let maxT := remaining TimeType.MaxTime inpm (limits'.time us) (limits'.inc us)
      opts.moveOverhead limits'.movestogo ply npm
  let optT' := if opts.ponder then optT + optT.tdiv 4 else optT
  ({ startTime := limits.startTime, optimumTime := optT', maximumTime := maxT,
     availableNodes := an }, limits')

/-! ### Elementary facts about `trunc` and `Int.tdiv` -/

lemma trunc_zero : trunc 0 = 0 := by
  simp [trunc]

lemma trunc_nonneg {x : ℝ} (h : 0 ≤ x) : 0 ≤ trunc x := by
  rw [trunc, if_pos h]
  exact Int.floor_nonneg.mpr h

lemma trunc_le_of_le {x : ℝ} {n : ℤ} (hn : 0 ≤ n) (hx : x ≤ (n : ℝ)) : trunc x ≤ n := by
  rw [trunc]
  split
  · calc ⌊x⌋ ≤ ⌊(n : ℝ)⌋ := Int.floor_le_floor hx
    _ = n := Int.floor_intCast n
  · have hx0 : x ≤ 0 := le_of_not_le (by assumption)
    have : ⌈x⌉ ≤ 0 := by
      exact_mod_cast Int.ceil_le.mpr (by exact_mod_cast hx0)
    omega

lemma trunc_mono_of_nonneg {x y : ℝ} (hx : 0 ≤ x) (hxy : x ≤ y) : trunc x ≤ trunc y := by
  rw [trunc, trunc, if_pos hx, if_pos (hx.trans hxy)]
  exact Int.floor_le_floor hxy

lemma trunc_intCast {n : ℤ} (h : 0 ≤ n) : trunc (n : ℝ) = n := by
  rw [trunc, if_pos (by exact_mod_cast h), Int.floor_intCast]

lemma add_tdiv_four_mono {a b : ℤ} (hab : a ≤ b) (hb : 0 ≤ b) :
    a + a.tdiv 4 ≤ b + b.tdiv 4 := by
  rcases le_or_lt 0 a with ha | ha
  · rw [Int.tdiv_eq_ediv ha (by norm_num), Int.tdiv_eq_ediv hb (by norm_num)]
    exact add_le_add hab (Int.ediv_le_ediv (by norm_num) hab)
  · have h1 : a.tdiv 4 = -((-a).tdiv 4) := by
      rw [← Int.neg_tdiv, neg_neg]
    have h2 : 0 ≤ (-a).tdiv 4 := Int.tdiv_nonneg (by omega) (by norm_num)
    have h3 : 0 ≤ b.tdiv 4 := Int.tdiv_nonneg hb (by norm_num)
    omega

lemma tdiv_nonneg_of_nonneg {a : ℤ} (h : 0 ≤ a) : 0 ≤ a.tdiv 4 :=
  Int.tdiv_nonneg h (by norm_num)

/-! ### Sign and bound facts about the curve pieces -/

lemma mnOf_nonneg {ply : ℤ} (h : 0 ≤ ply) : 0 ≤ mnOf ply :=
  Int.tdiv_nonneg (by omega) (by norm_num)

lemma mnOf_mono {ply ply' : ℤ} (h : 0 ≤ ply) (h' : ply ≤ ply') : mnOf ply ≤ mnOf ply' := by
  rw [mnOf, mnOf, Int.tdiv_eq_ediv (by omega) (by norm_num),
    Int.tdiv_eq_ediv (by omega) (by norm_num)]
  exact Int.ediv_le_ediv (by norm_num) (by omega)

lemma complexityOf_nonneg {inpm npm : ℤ} (hn : 0 ≤ npm) (hi : 0 < inpm) :
    0 ≤ complexityOf inpm npm := by
  rw [complexityOf]
  have h1 : (0 : ℝ) ≤ ((min npm inpm : ℤ) : ℝ) := by
    exact_mod_cast le_min hn hi.le
  have h2 : (0 : ℝ) ≤ (inpm : ℝ) := by exact_mod_cast hi.le
  positivity

lemma sdOf_ge_one {movesToGo ply : ℤ} (h : 0 ≤ ply) : 1 ≤ sdOf movesToGo ply := by
  rw [sdOf]
  split
  · norm_num
  · have hmn : (0 : ℝ) ≤ (mnOf ply : ℝ) := by exact_mod_cast mnOf_nonneg h
    have : (0 : ℝ) ≤ 15.0 * (mnOf ply : ℝ) / (500.0 + (mnOf ply : ℝ)) := by positivity
    linarith

lemma sdOf_pos (movesToGo : ℤ) {ply : ℤ} (h : 0 ≤ ply) : 0 < sdOf movesToGo ply :=
  lt_of_lt_of_le one_pos (sdOf_ge_one h)

lemma mtgWeight_nonneg {mn : ℤ} (h : 0 ≤ mn) : 0 ≤ mtgWeight mn := by
  rw [mtgWeight]
  split
  · have hmn : (0 : ℝ) ≤ (mn : ℝ) := by exact_mod_cast h
    have := Real.exp_pos (-0.052 * (mn : ℝ))
    positivity
  · norm_num

lemma incUsageOf_ge : ∀ ply : ℤ, 54 ≤ incUsageOf ply := by
  intro ply
  rw [incUsageOf]
  have := Real.exp_pos (((-(mnOf ply - 19) * (mnOf ply - 19) : ℤ) : ℝ) / 405.0)
  linarith

lemma incUsageOf_nonneg (ply : ℤ) : 0 ≤ incUsageOf ply :=
  le_trans (by norm_num) (incUsageOf_ge ply)

lemma incFactor_ge_one (myTime myInc movesToGo ply : ℤ)
    (ht : 0 ≤ myTime) (hi : 0 ≤ myInc) (hp : 0 ≤ ply) :
    1 ≤ 1.0 + incUsageOf ply * (myInc : ℝ) / ((myTime : ℝ) * sdOf movesToGo ply) := by
  have h1 : (0 : ℝ) ≤ incUsageOf ply * (myInc : ℝ) := by
    have := incUsageOf_nonneg ply
    have : (0 : ℝ) ≤ (myInc : ℝ) := by exact_mod_cast hi
    positivity
  have h2 : (0 : ℝ) ≤ (myTime : ℝ) * sdOf movesToGo ply := by
    have := (sdOf_pos movesToGo hp).le
    have : (0 : ℝ) ≤ (myTime : ℝ) := by exact_mod_cast ht
    positivity
  have := div_nonneg h1 h2
  linarith

lemma tRatioOf_nonneg (T : TimeType) (movesToGo : ℤ) {inpm ply npm : ℤ}
    (hm : 0 ≤ movesToGo) (hp : 0 ≤ ply) (hn : 0 ≤ npm) (hi : 0 < inpm) :
    0 ≤ tRatioOf T inpm movesToGo ply npm := by
  rw [tRatioOf]
  have hc := complexityOf_nonneg hn hi
  by_cases hmt : movesToGo ≠ 0
  · rw [if_pos hmt]
    have hmtg : (0 : ℝ) < (movesToGo : ℝ) := by
      have : (0 : ℤ) < movesToGo := lt_of_le_of_ne hm (Ne.symm hmt)
      exact_mod_cast this
    have hw := mtgWeight_nonneg (mnOf_nonneg hp)
    have hcoef : (0 : ℝ) ≤ (if T = TimeType.OptimumTime then (1.0 : ℝ) else 6.0) := by
      split <;> norm_num
    positivity
  · rw [if_neg hmt]
    have hsd := (sdOf_pos movesToGo hp).le
    have hcoef : (0 : ℝ) ≤ (if T = TimeType.OptimumTime then (0.018 : ℝ) else 0.074) := by
      split <;> norm_num
    positivity

lemma ratioOf_le_one (T : TimeType) (inpm myTime myInc movesToGo ply npm : ℤ) :
    ratioOf T inpm myTime myInc movesToGo ply npm ≤ 1 := by
  rw [ratioOf]
  exact min_le_of_left_le (by norm_num)

lemma ratioOf_nonneg (T : TimeType) (inpm myTime myInc movesToGo ply npm : ℤ)
    (ht : 0 ≤ myTime) (hinc : 0 ≤ myInc) (hm : 0 ≤ movesToGo) (hp : 0 ≤ ply)
    (hn : 0 ≤ npm) (hi : 0 < inpm) :
    0 ≤ ratioOf T inpm myTime myInc movesToGo ply npm := by
  rw [ratioOf]
  refine le_min (by norm_num) ?_
  have h1 := tRatioOf_nonneg T movesToGo hm hp hn hi
  have h2 := incFactor_ge_one myTime myInc movesToGo ply ht hinc hp
  nlinarith

/-- The budget returned by `remaining` never exceeds `max 0 (myTime - moveOverhead)`,
for any inputs whatsoever. -/
lemma remaining_le_hyp (T : TimeType) (inpm myTime myInc moveOverhead movesToGo ply npm : ℤ) :
    remaining T inpm myTime myInc moveOverhead movesToGo ply npm
      ≤ max 0 (myTime - moveOverhead) := by
  rw [remaining]
  have h0 : (0 : ℤ) ≤ max 0 (myTime - moveOverhead) := le_max_left _ _
  refine trunc_le_of_le h0 ?_
  have hr := ratioOf_le_one T inpm myTime myInc movesToGo ply npm
  have hcast : (0 : ℝ) ≤ ((max 0 (myTime - moveOverhead) : ℤ) : ℝ) := by exact_mod_cast h0
  nlinarith

/-! ### The optimum profile never exceeds the maximum profile -/

lemma tRatioOf_opt_le_max (inpm movesToGo ply npm : ℤ)
    (hm : 0 ≤ movesToGo) (hp : 0 ≤ ply) (hn : 0 ≤ npm) (hi : 0 < inpm) :
    tRatioOf TimeType.OptimumTime inpm movesToGo ply npm
      ≤ tRatioOf TimeType.MaxTime inpm movesToGo ply npm := by
  rw [tRatioOf, tRatioOf]
  have hc := complexityOf_nonneg hn hi
  have hsel1 : (if TimeType.OptimumTime = TimeType.OptimumTime then (1.0 : ℝ) else 6.0) = 1.0 :=
    if_pos rfl
  have hsel2 : (if TimeType.MaxTime = TimeType.OptimumTime then (1.0 : ℝ) else 6.0) = 6.0 :=
    if_neg (by decide)
  have hsel3 : (if TimeType.OptimumTime = TimeType.OptimumTime then (0.018 : ℝ) else 0.074) = 0.018 :=
    if_pos rfl
  have hsel4 : (if TimeType.MaxTime = TimeType.OptimumTime then (0.018 : ℝ) else 0.074) = 0.074 :=
    if_neg (by decide)
  by_cases hmt : movesToGo ≠ 0
  · rw [if_pos hmt, if_pos hmt, hsel1, hsel2]
    have hmtg : (0 : ℝ) < (movesToGo : ℝ) := by
      have : (0 : ℤ) < movesToGo := lt_of_le_of_ne hm (Ne.symm hmt)
      exact_mod_cast this
    have hw := mtgWeight_nonneg (mnOf_nonneg hp)
    have hdiv : (1.0 : ℝ) / (movesToGo : ℝ) ≤ (6.0 : ℝ) / (movesToGo : ℝ) := by
      rw [div_le_div_iff₀ hmtg hmtg]
      nlinarith
    exact mul_le_mul_of_nonneg_right (mul_le_mul_of_nonneg_right hdiv hc) hw
  · rw [if_neg hmt, if_neg hmt, hsel3, hsel4]
    have hsd := (sdOf_pos movesToGo hp).le
    exact mul_le_mul_of_nonneg_right
      (mul_le_mul_of_nonneg_right (by norm_num) hsd) hc

lemma ratioOf_opt_le_max (inpm myTime myInc movesToGo ply npm : ℤ)
    (ht : 0 ≤ myTime) (hinc : 0 ≤ myInc) (hm : 0 ≤ movesToGo) (hp : 0 ≤ ply)
    (hn : 0 ≤ npm) (hi : 0 < inpm) :
    ratioOf TimeType.OptimumTime inpm myTime myInc movesToGo ply npm
      ≤ ratioOf TimeType.MaxTime inpm myTime myInc movesToGo ply npm := by
  rw [ratioOf, ratioOf]
  have hF := incFactor_ge_one myTime myInc movesToGo ply ht hinc hp
  have hT := tRatioOf_opt_le_max inpm movesToGo ply npm hm hp hn hi
  exact min_le_min le_rfl (mul_le_mul_of_nonneg_right hT (by linarith))

lemma remaining_nonneg (T : TimeType) {inpm myTime myInc movesToGo ply npm : ℤ}
    (moveOverhead : ℤ)
    (ht : 0 ≤ myTime) (hinc : 0 ≤ myInc) (hm : 0 ≤ movesToGo) (hp : 0 ≤ ply)
    (hn : 0 ≤ npm) (hi : 0 < inpm) :
    0 ≤ remaining T inpm myTime myInc moveOverhead movesToGo ply npm := by
  rw [remaining]
  apply trunc_nonneg
  have h0 : (0 : ℝ) ≤ ((max 0 (myTime - moveOverhead) : ℤ) : ℝ) := by
    exact_mod_cast le_max_left 0 (myTime - moveOverhead)
  have hr := ratioOf_nonneg T inpm myTime myInc movesToGo ply npm ht hinc hm hp hn hi
  positivity

lemma remaining_opt_le_max {inpm myTime myInc movesToGo ply npm : ℤ} (moveOverhead : ℤ)
    (ht : 0 ≤ myTime) (hinc : 0 ≤ myInc) (hm : 0 ≤ movesToGo) (hp : 0 ≤ ply)
    (hn : 0 ≤ npm) (hi : 0 < inpm) :
    remaining TimeType.OptimumTime inpm myTime myInc moveOverhead movesToGo ply npm
      ≤ remaining TimeType.MaxTime inpm myTime myInc moveOverhead movesToGo ply npm := by
  rw [remaining, remaining]
  have h0 : (0 : ℝ) ≤ ((max 0 (myTime - moveOverhead) : ℤ) : ℝ) := by
    exact_mod_cast le_max_left 0 (myTime - moveOverhead)
  have hr := ratioOf_nonneg TimeType.OptimumTime inpm myTime myInc movesToGo ply npm ht hinc hm hp hn hi
  have hom := ratioOf_opt_le_max inpm myTime myInc movesToGo ply npm ht hinc hm hp hn hi
  exact trunc_mono_of_nonneg (by positivity) (mul_le_mul_of_nonneg_left hom h0)

/-! ### Characterisation of `init` when nodes-as-time mode is off -/

lemma init_eq_of_nodestime_zero (opts : EngineOptions) (tm : TimeManagement)
    (lim : LimitsType) (us : Color) (ply npm inpm : ℤ) (h0 : opts.nodestime = 0) :
    init opts tm lim us ply npm inpm =
      ({ startTime := lim.startTime,
         optimumTime :=
           if opts.ponder then
             remaining TimeType.OptimumTime inpm (lim.time us) (lim.inc us)
                 opts.moveOverhead lim.movestogo ply npm
               + (remaining TimeType.OptimumTime inpm (lim.time us) (lim.inc us)
                   opts.moveOverhead lim.movestogo ply npm).tdiv 4
           else
             remaining TimeType.OptimumTime inpm (lim.time us) (lim.inc us)
                 opts.moveOverhead lim.movestogo ply npm,
         maximumTime := remaining TimeType.MaxTime inpm (lim.time us) (lim.inc us)
             opts.moveOverhead lim.movestogo ply npm,
         availableNodes := tm.availableNodes }, lim) := by
  simp [init, h0]

/-- With the overhead subtracted, a non-positive usable time forces a zero budget. -/
lemma remaining_zero_of_overhead (T : TimeType) (inpm myTime myInc moveOverhead movesToGo ply npm : ℤ)
    (h : myTime ≤ moveOverhead) :
    remaining T inpm myTime myInc moveOverhead movesToGo ply npm = 0 := by
  rw [remaining]
  have hmax : max 0 (myTime - moveOverhead) = 0 := max_eq_left (by omega)
  rw [hmax]
  simpa using trunc_zero

/-! ### Concrete test fixtures -/

/-- A configuration with Ponder enabled and nodes-as-time off. -/
def optsPonder : EngineOptions := ⟨30, 0, true⟩

/-- A configuration with Ponder disabled and nodes-as-time off. -/
def optsPlain : EngineOptions := ⟨30, 0, false⟩

/-- A fresh allocator state. -/
def tmFresh : TimeManagement := ⟨0, 0, 0, 0⟩

/-- A sudden-death time-control record: 60 s, 1 s increment. -/
def limSd : LimitsType := ⟨fun _ => 60000, fun _ => 1000, 0, 0, 17⟩

/-! ### C1 -/

/-- C1 (amended): with nodes-as-time off, `maximumTime` never exceeds
`max 0 (myTime - moveOverhead)`; `optimumTime` obeys the same bound whenever the
Ponder option is disabled; with Ponder enabled it is only bounded by the usable
time inflated by a quarter (`h + h.tdiv 4`), and can exceed the usable time. -/
theorem init_budgets_bounded_by_usable_time (opts : EngineOptions) (tm : TimeManagement)
    (lim : LimitsType) (us : Color) (ply npm inpm : ℤ) (h0 : opts.nodestime = 0) :
    (init opts tm lim us ply npm inpm).1.maximumTime
        ≤ max 0 (lim.time us - opts.moveOverhead)
    ∧ (opts.ponder = false →
        (init opts tm lim us ply npm inpm).1.optimumTime
          ≤ max 0 (lim.time us - opts.moveOverhead))
    ∧ (init opts tm lim us ply npm inpm).1.optimumTime
        ≤ max 0 (lim.time us - opts.moveOverhead)
          + (max 0 (lim.time us - opts.moveOverhead)).tdiv 4 := by
  rw [init_eq_of_nodestime_zero opts tm lim us ply npm inpm h0]
  have hmaxb := remaining_le_hyp TimeType.MaxTime inpm (lim.time us) (lim.inc us)
    opts.moveOverhead lim.movestogo ply npm
  have hoptb := remaining_le_hyp TimeType.OptimumTime inpm (lim.time us) (lim.inc us)
    opts.moveOverhead lim.movestogo ply npm
  have hh : (0 : ℤ) ≤ max 0 (lim.time us - opts.moveOverhead) := le_max_left _ _
  refine ⟨hmaxb, ?_, ?_⟩
  · intro hpond
    simpa [hpond] using hoptb
  · rcases hpond : opts.ponder with _ | _
    · simp only [hpond, if_neg Bool.false_ne_true]
      have := tdiv_nonneg_of_nonneg hh
      omega
    · simp only [hpond, if_pos rfl]
      exact add_tdiv_four_mono hoptb hh

/-- C1 witness: the amended bound instantiated at a concrete Ponder-enabled
configuration. -/
theorem init_budgets_bounded_by_usable_time_witness :
    optsPonder.nodestime = 0
    ∧ ((init optsPonder tmFresh limSd Color.white 10 5000 16000).1.maximumTime
          ≤ max 0 (limSd.time Color.white - optsPonder.moveOverhead)
      ∧ (optsPonder.ponder = false →
          (init optsPonder tmFresh limSd Color.white 10 5000 16000).1.optimumTime
            ≤ max 0 (limSd.time Color.white - optsPonder.moveOverhead))
      ∧ (init optsPonder tmFresh limSd Color.white 10 5000 16000).1.optimumTime
          ≤ max 0 (limSd.time Color.white - optsPonder.moveOverhead)
            + (max 0 (limSd.time Color.white - optsPonder.moveOverhead)).tdiv 4) :=
  ⟨rfl, init_budgets_bounded_by_usable_time optsPonder tmFresh limSd Color.white 10 5000 16000 rfl⟩

/-! ### C2 -/

/-- C2 (amended): with nodes-as-time off and the Ponder option disabled,
`0 ≤ optimumTime ≤ maximumTime` holds for every valid input (nonnegative time,
increment, movesToGo, ply and material, positive material normaliser).  The
Ponder bonus can break the second inequality (see the counterexample). -/
theorem init_optimum_between_zero_and_maximum (opts : EngineOptions) (tm : TimeManagement)
    (lim : LimitsType) (us : Color) (ply npm inpm : ℤ)
    (h0 : opts.nodestime = 0) (hpond : opts.ponder = false)
    (ht : 0 ≤ lim.time us) (hinc : 0 ≤ lim.inc us) (hm : 0 ≤ lim.movestogo)
    (hp : 0 ≤ ply) (hn : 0 ≤ npm) (hi : 0 < inpm) :
    0 ≤ (init opts tm lim us ply npm inpm).1.optimumTime
    ∧ (init opts tm lim us ply npm inpm).1.optimumTime
        ≤ (init opts tm lim us ply npm inpm).1.maximumTime := by
  rw [init_eq_of_nodestime_zero opts tm lim us ply npm inpm h0]
  simp only [hpond, if_neg Bool.false_ne_true]
  exact ⟨remaining_nonneg TimeType.OptimumTime opts.moveOverhead ht hinc hm hp hn hi,
    remaining_opt_le_max opts.moveOverhead ht hinc hm hp hn hi⟩

/-- C2 witness: the amended ordering instantiated at a concrete Ponder-disabled
configuration. -/
theorem init_optimum_between_zero_and_maximum_witness :
    optsPlain.nodestime = 0 ∧ optsPlain.ponder = false
    ∧ (0 : ℤ) ≤ limSd.time Color.white ∧ (0 : ℤ) ≤ limSd.inc Color.white
    ∧ (0 : ℤ) ≤ limSd.movestogo ∧ (0 : ℤ) ≤ (10 : ℤ) ∧ (0 : ℤ) ≤ (5000 : ℤ)
    ∧ (0 : ℤ) < (16000 : ℤ)
    ∧ (0 ≤ (init optsPlain tmFresh limSd Color.white 10 5000 16000).1.optimumTime
      ∧ (init optsPlain tmFresh limSd Color.white 10 5000 16000).1.optimumTime
          ≤ (init optsPlain tmFresh limSd Color.white 10 5000 16000).1.maximumTime) :=
  ⟨rfl, rfl, by decide, by decide, by decide, by decide, by decide, by decide,
    init_optimum_between_zero_and_maximum optsPlain tmFresh limSd Color.white 10 5000 16000
      rfl rfl (by decide) (by decide) (by decide) (by decide) (by decide) (by decide)⟩

/-! ### C5 -/

/-- C5: with nodes-as-time off, whenever `moveOverhead ≥ myTime` (in particular
whenever `myTime = 0`, since the overhead option is nonnegative), both budgets
returned by `init` are `0`, regardless of increment, movesToGo, ply, material
signal and the Ponder setting. -/
theorem init_zero_budget_when_overhead_exhausts_time (opts : EngineOptions)
    (tm : TimeManagement) (lim : LimitsType) (us : Color) (ply npm inpm : ℤ)
    (h0 : opts.nodestime = 0) (h : lim.time us ≤ opts.moveOverhead) :
    (init opts tm lim us ply npm inpm).1.optimumTime = 0
    ∧ (init opts tm lim us ply npm inpm).1.maximumTime = 0 := by
  rw [init_eq_of_nodestime_zero opts tm lim us ply npm inpm h0]
  have hopt := remaining_zero_of_overhead TimeType.OptimumTime inpm (lim.time us)
    (lim.inc us) opts.moveOverhead lim.movestogo ply npm h
  have hmax := remaining_zero_of_overhead TimeType.MaxTime inpm (lim.time us)
    (lim.inc us) opts.moveOverhead lim.movestogo ply npm h
  refine ⟨?_, hmax⟩
  rcases hpond : opts.ponder with _ | _
  · simpa [hpond] using hopt
  · simp [hpond, hopt]

/-- C5 witness: a concrete call whose remaining time (20 ms) does not exceed the
configured overhead (30 ms), with Ponder enabled. -/
theorem init_zero_budget_when_overhead_exhausts_time_witness :
    optsPonder.nodestime = 0
    ∧ (⟨fun _ => 20, fun _ => 1000, 0, 0, 0⟩ : LimitsType).time Color.white
        ≤ optsPonder.moveOverhead
    ∧ ((init optsPonder tmFresh ⟨fun _ => 20, fun _ => 1000, 0, 0, 0⟩
          Color.white 3 100 16000).1.optimumTime = 0
      ∧ (init optsPonder tmFresh ⟨fun _ => 20, fun _ => 1000, 0, 0, 0⟩
          Color.white 3 100 16000).1.maximumTime = 0) :=
  ⟨rfl, by decide,
    init_zero_budget_when_overhead_exhausts_time optsPonder tmFresh
      ⟨fun _ => 20, fun _ => 1000, 0, 0, 0⟩ Color.white 3 100 16000 rfl (by decide)⟩

/-! ### C6 -/

/-- C6 (amended): for identical inputs and state, enabling the Ponder option
turns `optimumTime` into `optimumTime + optimumTime.tdiv 4` (the increase is
strict only when the non-ponder optimum is at least 4) and leaves `maximumTime`
completely unchanged. -/
theorem ponder_adds_quarter_and_keeps_maximum (mo nt : ℤ) (tm : TimeManagement)
    (lim : LimitsType) (us : Color) (ply npm inpm : ℤ) :
    (init ⟨mo, nt, true⟩ tm lim us ply npm inpm).1.optimumTime
      = (init ⟨mo, nt, false⟩ tm lim us ply npm inpm).1.optimumTime
        + ((init ⟨mo, nt, false⟩ tm lim us ply npm inpm).1.optimumTime).tdiv 4
    ∧ (init ⟨mo, nt, true⟩ tm lim us ply npm inpm).1.maximumTime
      = (init ⟨mo, nt, false⟩ tm lim us ply npm inpm).1.maximumTime :=
  ⟨rfl, rfl⟩

/-! ### C7 -/

/-- C7 (amended): when nodes-as-time mode is off, a call to `init` leaves the
`limits` record completely unchanged and does not touch `availableNodes`; it
records `startTime` from the supplied record.  (In nodes-as-time mode the call
additionally overwrites `limits.time[us]`, `limits.inc[us]` and `limits.npmsec`
— see the counterexample.) -/
theorem init_frame_outside_nodestime (opts : EngineOptions) (tm : TimeManagement)
    (lim : LimitsType) (us : Color) (ply npm inpm : ℤ) (h0 : opts.nodestime = 0) :
    (init opts tm lim us ply npm inpm).2 = lim
    ∧ (init opts tm lim us ply npm inpm).1.availableNodes = tm.availableNodes
    ∧ (init opts tm lim us ply npm inpm).1.startTime = lim.startTime := by
  rw [init_eq_of_nodestime_zero opts tm lim us ply npm inpm h0]
  exact ⟨rfl, rfl, rfl⟩

/-- C7 witness: the frame property instantiated at a concrete call. -/
theorem init_frame_outside_nodestime_witness :
    optsPlain.nodestime = 0
    ∧ ((init optsPlain tmFresh limSd Color.black 21 7000 16000).2 = limSd
      ∧ (init optsPlain tmFresh limSd Color.black 21 7000 16000).1.availableNodes
          = tmFresh.availableNodes
      ∧ (init optsPlain tmFresh limSd Color.black 21 7000 16000).1.startTime
          = limSd.startTime) :=
  ⟨rfl, init_frame_outside_nodestime optsPlain tmFresh limSd Color.black 21 7000 16000 rfl⟩

/-! ### C10 -/

/-- C10: `init` is deterministic — two calls with equal configuration options,
equal prior allocator state, equal time-control record, side, ply and material
signal produce identical budgets, recorded start time, post-call state and
post-call record. -/
theorem init_deterministic (o₁ o₂ : EngineOptions) (t₁ t₂ : TimeManagement)
    (l₁ l₂ : LimitsType) (u₁ u₂ : Color) (p₁ p₂ n₁ n₂ i₁ i₂ : ℤ)
    (ho : o₁ = o₂) (ht : t₁ = t₂) (hl : l₁ = l₂) (hu : u₁ = u₂)
    (hp : p₁ = p₂) (hn : n₁ = n₂) (hi : i₁ = i₂) :
    init o₁ t₁ l₁ u₁ p₁ n₁ i₁ = init o₂ t₂ l₂ u₂ p₂ n₂ i₂ := by
  subst ho; subst ht; subst hl; subst hu; subst hp; subst hn; subst hi; rfl

/-- C10 witness: determinism instantiated at one concrete call. -/
theorem init_deterministic_witness :
    optsPlain = optsPlain
    ∧ init optsPlain tmFresh limSd Color.white 9 4000 16000
        = init optsPlain tmFresh limSd Color.white 9 4000 16000 :=
  ⟨rfl, init_deterministic optsPlain optsPlain tmFresh tmFresh limSd limSd
    Color.white Color.white 9 9 4000 4000 16000 16000 rfl rfl rfl rfl rfl rfl rfl⟩

/-! ### Concrete evaluations of `remaining` -/

lemma mn_one : mnOf 1 = 1 := by decide

lemma sd_zero_one : sdOf 0 1 = 516 / 501 := by
  rw [sdOf, if_neg (by decide), mn_one]
  norm_num

lemma complexity_npm_zero : complexityOf 16000 0 = 0.2 := by
  rw [complexityOf, show min (0 : ℤ) 16000 = 0 from by decide]
  norm_num

/-- At 100 ms remaining with a 100 s increment on move 1, the pre-clamp ratio
exceeds 1 for both profiles, so the whole usable time is returned. -/
lemma remaining_clamped_at (T : TimeType) :
    remaining T 16000 100 100000 0 0 1 0 = 100 := by
  have hinc : (54 : ℝ) ≤ incUsageOf 1 := incUsageOf_ge 1
  have hcoef : (0.018 : ℝ) ≤ (if T = TimeType.OptimumTime then (0.018 : ℝ) else 0.074) := by
    split <;> norm_num
  have hratio : ratioOf T 16000 100 100000 0 1 0 = 1 := by
    rw [ratioOf, tRatioOf, if_neg (show ¬((0 : ℤ) ≠ 0) from by decide), sd_zero_one,
      complexity_npm_zero]
    have h1 : (1 : ℝ) ≤ (if T = TimeType.OptimumTime then (0.018 : ℝ) else 0.074)
        * (516 / 501) * 0.2
        * (1.0 + incUsageOf 1 * ((100000 : ℤ) : ℝ) / (((100 : ℤ) : ℝ) * (516 / 501))) := by
      have hd : incUsageOf 1 * ((100000 : ℤ) : ℝ) / (((100 : ℤ) : ℝ) * (516 / 501))
          = incUsageOf 1 * (501000 / 516) := by
        push_cast
        ring
      rw [hd]
      nlinarith [hinc, hcoef]
    exact le_antisymm (min_le_of_left_le (by norm_num)) (le_min (by norm_num) h1)
  rw [remaining, hratio, show max 0 ((100 : ℤ) - 0) = 100 from by decide, mul_one]
  exact trunc_intCast (by decide)

/-- At 100 ms remaining with no increment on move 1 the optimum budget
truncates to zero. -/
lemma remaining_small_optimum_zero :
    remaining TimeType.OptimumTime 16000 100 0 0 0 1 0 = 0 := by
  have hratio : ratioOf TimeType.OptimumTime 16000 100 0 0 1 0
      = 0.018 * (516 / 501) * 0.2 := by
    rw [ratioOf, tRatioOf, if_neg (show ¬((0 : ℤ) ≠ 0) from by decide), if_pos rfl,
      sd_zero_one, complexity_npm_zero]
    push_cast
    rw [mul_zero, zero_div, add_zero]
    rw [min_eq_right (by norm_num)]
    norm_num
  rw [remaining, hratio, show max 0 ((100 : ℤ) - 0) = 100 from by decide]
  rw [trunc, if_pos (by push_cast; norm_num)]
  rw [Int.floor_eq_zero_iff]
  constructor <;> push_cast <;> norm_num

/-! ### C1 counterexample -/

/-- C1 counterexample: with Ponder enabled, at 100 ms remaining, 100 s
increment, no overhead, sudden death, move 1, the optimum budget is 125 ms,
strictly above the usable time `max 0 (myTime - moveOverhead) = 100`. -/
theorem init_ponder_budget_exceeds_usable_time :
    max 0 ((⟨fun _ => 100, fun _ => 100000, 0, 0, 0⟩ : LimitsType).time Color.white
        - (⟨0, 0, true⟩ : EngineOptions).moveOverhead)
      < (init ⟨0, 0, true⟩ tmFresh ⟨fun _ => 100, fun _ => 100000, 0, 0, 0⟩
          Color.white 1 0 16000).1.optimumTime := by
  have h := remaining_clamped_at TimeType.OptimumTime
  rw [init_eq_of_nodestime_zero _ _ _ _ _ _ _ rfl, h]
  decide

/-! ### C2 counterexample -/

/-- C2 counterexample: at the same clamped input with Ponder enabled the
optimum budget (125 ms) strictly exceeds the maximum budget (100 ms). -/
theorem init_ponder_optimum_exceeds_maximum :
    (init ⟨0, 0, true⟩ tmFresh ⟨fun _ => 100, fun _ => 100000, 0, 0, 0⟩
        Color.white 1 0 16000).1.maximumTime
      < (init ⟨0, 0, true⟩ tmFresh ⟨fun _ => 100, fun _ => 100000, 0, 0, 0⟩
          Color.white 1 0 16000).1.optimumTime := by
  have h1 := remaining_clamped_at TimeType.OptimumTime
  have h2 := remaining_clamped_at TimeType.MaxTime
  rw [init_eq_of_nodestime_zero _ _ _ _ _ _ _ rfl, h1, h2]
  decide

/-! ### C6 counterexample -/

/-- C6 counterexample: at 100 ms remaining, no increment, move 1, the computed
optimum is 0, so enabling Ponder does not strictly increase `optimumTime`. -/
theorem ponder_no_strict_increase_on_small_optimum :
    ¬ ((init ⟨0, 0, false⟩ tmFresh ⟨fun _ => 100, fun _ => 0, 0, 0, 0⟩
          Color.white 1 0 16000).1.optimumTime
        < (init ⟨0, 0, true⟩ tmFresh ⟨fun _ => 100, fun _ => 0, 0, 0, 0⟩
            Color.white 1 0 16000).1.optimumTime) := by
  have h := remaining_small_optimum_zero
  rw [init_eq_of_nodestime_zero _ _ _ _ _ _ _ rfl,
    init_eq_of_nodestime_zero _ _ _ _ _ _ _ rfl, h]
  decide

/-! ### C3 -/

/-- C3 (amended): in nodes-as-time mode, provided the product
`nodestime * myTime` of the first call is nonzero, `availableNodes` is fixed by
the first call (`rate * myTime`) and any later call in the same game — with an
arbitrary new record, side, ply and material — reuses the stored value instead
of re-deriving it.  (A first call with `rate * myTime = 0` leaves the anchor in
its unset state `0`, so a later call would re-derive it — see the
counterexample.) -/
theorem availableNodes_fixed_once_nonzero (opts : EngineOptions) (tm : TimeManagement)
    (l₁ l₂ : LimitsType) (u₁ u₂ : Color) (p₁ p₂ n₁ n₂ inpm : ℤ)
    (hnt : opts.nodestime ≠ 0) (h0 : tm.availableNodes = 0)
    (hfirst : opts.nodestime * l₁.time u₁ ≠ 0) :
    (init opts tm l₁ u₁ p₁ n₁ inpm).1.availableNodes = opts.nodestime * l₁.time u₁
    ∧ (init opts (init opts tm l₁ u₁ p₁ n₁ inpm).1 l₂ u₂ p₂ n₂ inpm).1.availableNodes
        = opts.nodestime * l₁.time u₁ := by
  have h1 : (init opts tm l₁ u₁ p₁ n₁ inpm).1.availableNodes
      = opts.nodestime * l₁.time u₁ := by
    simp [init, hnt, h0]
  refine ⟨h1, ?_⟩
  simp only [init, hnt, ne_eq, not_false_eq_true, if_true, if_pos h0]
  rw [if_neg hfirst]

/-- C3 witness: a concrete pair of calls at rate 10, first time 6000 ms, second
time 5000 ms; the anchor stays `10 * 6000`. -/
theorem availableNodes_fixed_once_nonzero_witness :
    (⟨30, 10, false⟩ : EngineOptions).nodestime ≠ 0
    ∧ tmFresh.availableNodes = 0
    ∧ (⟨30, 10, false⟩ : EngineOptions).nodestime
        * (⟨fun _ => 6000, fun _ => 0, 0, 0, 0⟩ : LimitsType).time Color.white ≠ 0
    ∧ ((init ⟨30, 10, false⟩ tmFresh ⟨fun _ => 6000, fun _ => 0, 0, 0, 0⟩
          Color.white 4 100 16000).1.availableNodes
        = (⟨30, 10, false⟩ : EngineOptions).nodestime
            * (⟨fun _ => 6000, fun _ => 0, 0, 0, 0⟩ : LimitsType).time Color.white
      ∧ (init ⟨30, 10, false⟩
            (init ⟨30, 10, false⟩ tmFresh ⟨fun _ => 6000, fun _ => 0, 0, 0, 0⟩
              Color.white 4 100 16000).1
            ⟨fun _ => 5000, fun _ => 0, 0, 0, 0⟩ Color.black 6 200 16000).1.availableNodes
          = (⟨30, 10, false⟩ : EngineOptions).nodestime
              * (⟨fun _ => 6000, fun _ => 0, 0, 0, 0⟩ : LimitsType).time Color.white) :=
  ⟨by decide, rfl, by decide,
    availableNodes_fixed_once_nonzero ⟨30, 10, false⟩ tmFresh
      ⟨fun _ => 6000, fun _ => 0, 0, 0, 0⟩ ⟨fun _ => 5000, fun _ => 0, 0, 0, 0⟩
      Color.white Color.black 4 6 100 200 16000 (by decide) rfl (by decide)⟩

/-- C3 counterexample: if the first nodes-as-time call sees `myTime = 0`, the
anchor is set to `0` — the unset marker — so a second call with `myTime = 5000`
re-derives `availableNodes = 50000` from its own raw `myTime`, instead of
reusing the value derived from the first call's `myTime`. -/
theorem availableNodes_rederived_after_zero_first_time :
    (init ⟨30, 10, false⟩
        (init ⟨30, 10, false⟩ tmFresh ⟨fun _ => 0, fun _ => 0, 0, 0, 0⟩
          Color.white 0 0 16000).1
        ⟨fun _ => 5000, fun _ => 0, 0, 0, 0⟩ Color.white 0 0 16000).1.availableNodes = 50000
    ∧ (⟨30, 10, false⟩ : EngineOptions).nodestime
        * (⟨fun _ => 0, fun _ => 0, 0, 0, 0⟩ : LimitsType).time Color.white ≠ 50000 := by
  constructor
  · norm_num [init, tmFresh]
  · decide

/-! ### C7 counterexample -/

/-- C7 counterexample: in nodes-as-time mode (rate 10), a call with 100 ms
remaining overwrites the record's remaining-time field with the converted
node count 1000, so the input record is not left unchanged. -/
theorem init_mutates_limits_in_nodestime_mode :
    ((init ⟨30, 10, false⟩ tmFresh ⟨fun _ => 100, fun _ => 7, 0, 0, 0⟩
        Color.white 0 0 16000).2).time Color.white = 1000
    ∧ (⟨fun _ => 100, fun _ => 7, 0, 0, 0⟩ : LimitsType).time Color.white ≠ 1000 := by
  constructor
  · norm_num [init, tmFresh, Function.update]
  · decide

/-! ### C9 -/

lemma sd_sudden_mono {ply ply' : ℤ} (h : 0 ≤ ply) (h' : ply ≤ ply') :
    sdOf 0 ply ≤ sdOf 0 ply' := by
  rw [sdOf, sdOf, if_neg (show ¬((0 : ℤ) ≠ 0) from by decide),
    if_neg (show ¬((0 : ℤ) ≠ 0) from by decide)]
  have h1 : (0 : ℝ) ≤ (mnOf ply : ℝ) := by exact_mod_cast mnOf_nonneg h
  have h2 : (mnOf ply : ℝ) ≤ (mnOf ply' : ℝ) := by exact_mod_cast mnOf_mono h h'
  have h3 : (0 : ℝ) < 500.0 + (mnOf ply : ℝ) := by linarith
  have h4 : (0 : ℝ) < 500.0 + (mnOf ply' : ℝ) := by linarith
  have h5 : 15.0 * (mnOf ply : ℝ) / (500.0 + (mnOf ply : ℝ))
      ≤ 15.0 * (mnOf ply' : ℝ) / (500.0 + (mnOf ply' : ℝ)) := by
    rw [div_le_div_iff₀ h3 h4]
    nlinarith
  linarith

lemma tRatio_sudden_mono (T : TimeType) {inpm ply ply' npm : ℤ}
    (h : 0 ≤ ply) (h' : ply ≤ ply') (hn : 0 ≤ npm) (hi : 0 < inpm) :
    tRatioOf T inpm 0 ply npm ≤ tRatioOf T inpm 0 ply' npm := by
  rw [tRatioOf, tRatioOf, if_neg (show ¬((0 : ℤ) ≠ 0) from by decide),
    if_neg (show ¬((0 : ℤ) ≠ 0) from by decide)]
  have hc := complexityOf_nonneg hn hi
  have hs := sd_sudden_mono h h'
  have hcoef : (0 : ℝ) ≤ (if T = TimeType.OptimumTime then (0.018 : ℝ) else 0.074) := by
    split <;> norm_num
  exact mul_le_mul_of_nonneg_right (mul_le_mul_of_nonneg_left hs hcoef) hc

lemma ratioOf_zero_inc (T : TimeType) (inpm myTime movesToGo ply npm : ℤ) :
    ratioOf T inpm myTime 0 movesToGo ply npm
      = min 1.0 (tRatioOf T inpm movesToGo ply npm) := by
  rw [ratioOf]
  norm_num

/-- C9 (amended): in sudden death with no increment, the clamped usage ratio
and both returned budgets are monotone non-decreasing in the ply (hence in the
move number), with time, overhead and the material signal held fixed.  With a
positive increment the bell-shaped increment-usage term can make the ratio
decrease past its peak — see the counterexample. -/
theorem sudden_death_monotone_without_increment (T : TimeType)
    (inpm myTime moveOverhead ply ply' npm : ℤ)
    (h0 : 0 ≤ ply) (h1 : ply ≤ ply') (hn : 0 ≤ npm) (hi : 0 < inpm) :
    ratioOf T inpm myTime 0 0 ply npm ≤ ratioOf T inpm myTime 0 0 ply' npm
    ∧ remaining T inpm myTime 0 moveOverhead 0 ply npm
        ≤ remaining T inpm myTime 0 moveOverhead 0 ply' npm := by
  have hr : ratioOf T inpm myTime 0 0 ply npm ≤ ratioOf T inpm myTime 0 0 ply' npm := by
    rw [ratioOf_zero_inc, ratioOf_zero_inc]
    exact min_le_min le_rfl (tRatio_sudden_mono T h0 h1 hn hi)
  refine ⟨hr, ?_⟩
  rw [remaining, remaining]
  have hh : (0 : ℝ) ≤ ((max 0 (myTime - moveOverhead) : ℤ) : ℝ) := by
    exact_mod_cast le_max_left 0 (myTime - moveOverhead)
  have hrn : 0 ≤ ratioOf T inpm myTime 0 0 ply npm := by
    rw [ratioOf_zero_inc]
    exact le_min (by norm_num) (tRatioOf_nonneg T 0 le_rfl h0 hn hi)
  exact trunc_mono_of_nonneg (by positivity) (mul_le_mul_of_nonneg_left hr hh)

/-- C9 witness: monotonicity instantiated between plies 5 and 11 at 60 s. -/
theorem sudden_death_monotone_without_increment_witness :
    (0 : ℤ) ≤ 5 ∧ (5 : ℤ) ≤ 11 ∧ (0 : ℤ) ≤ 3000 ∧ (0 : ℤ) < 16000
    ∧ (ratioOf TimeType.MaxTime 16000 60000 0 0 5 3000
          ≤ ratioOf TimeType.MaxTime 16000 60000 0 0 11 3000
      ∧ remaining TimeType.MaxTime 16000 60000 0 30 0 5 3000
          ≤ remaining TimeType.MaxTime 16000 60000 0 30 0 11 3000) :=
  ⟨by decide, by decide, by decide, by decide,
    sudden_death_monotone_without_increment TimeType.MaxTime 16000 60000 30 5 11 3000
      (by decide) (by decide) (by decide) (by decide)⟩

lemma sd_ply37 : sdOf 0 37 = 268 / 173 := by
  rw [sdOf, if_neg (show ¬((0 : ℤ) ≠ 0) from by decide), show mnOf 37 = 19 from by decide]
  norm_num

lemma sd_ply119 : sdOf 0 119 = 73 / 28 := by
  rw [sdOf, if_neg (show ¬((0 : ℤ) ≠ 0) from by decide), show mnOf 119 = 60 from by decide]
  norm_num

lemma incU_ply37 : incUsageOf 37 = 98 := by
  rw [incUsageOf, show mnOf 37 = 19 from by decide]
  norm_num [Real.exp_zero]

lemma incU_ply119_le : incUsageOf 119 ≤ 54 + 44 * (405 / 2086) := by
  rw [incUsageOf, show mnOf 119 = 60 from by decide]
  have h1 : (((-(60 - 19) * (60 - 19) : ℤ) : ℝ) / 405.0) = -(1681 / 405) := by
    push_cast
    norm_num
  rw [h1, Real.exp_neg]
  have h2 : (2086 / 405 : ℝ) ≤ Real.exp (1681 / 405) := by
    have := Real.add_one_le_exp ((1681 : ℝ) / 405)
    linarith
  have h3 : (Real.exp (1681 / 405))⁻¹ ≤ (405 / 2086 : ℝ) := by
    have h4 : ((2086 / 405 : ℝ))⁻¹ = 405 / 2086 := by norm_num
    rw [← h4]
    exact inv_anti₀ (by norm_num) h2
  linarith

lemma ratio_ply37 : ratioOf TimeType.OptimumTime 16000 1000 1000 0 37 0
    = 77499 / 216250 := by
  rw [ratioOf, tRatioOf, if_neg (show ¬((0 : ℤ) ≠ 0) from by decide), if_pos rfl,
    sd_ply37, complexity_npm_zero, incU_ply37]
  push_cast
  rw [min_eq_right (by norm_num)]
  norm_num

lemma ratio_ply119_le : ratioOf TimeType.OptimumTime 16000 1000 1000 0 119 0 ≤ 0.24 := by
  rw [ratioOf]
  refine le_trans (min_le_right _ _) ?_
  rw [tRatioOf, if_neg (show ¬((0 : ℤ) ≠ 0) from by decide), if_pos rfl,
    sd_ply119, complexity_npm_zero]
  have hd : incUsageOf 119 * ((1000 : ℤ) : ℝ) / (((1000 : ℤ) : ℝ) * (73 / 28))
      = incUsageOf 119 * (28 / 73) := by
    push_cast
    ring
  rw [hd]
  have h1 := incU_ply119_le
  have h2 := incUsageOf_ge 119
  nlinarith

/-- C9 counterexample: in sudden death with a 1 s increment on a 1 s clock, the
clamped ratio and the optimum budget both strictly decrease between move 19
(ply 37) and move 60 (ply 119): the bell-shaped increment-usage factor decays
faster than the sudden-death factor grows. -/
theorem sudden_death_ratio_decreases_with_increment :
    ratioOf TimeType.OptimumTime 16000 1000 1000 0 119 0
      < ratioOf TimeType.OptimumTime 16000 1000 1000 0 37 0
    ∧ remaining TimeType.OptimumTime 16000 1000 1000 0 0 119 0
        < remaining TimeType.OptimumTime 16000 1000 1000 0 0 37 0 := by
  have h37 := ratio_ply37
  have h119 := ratio_ply119_le
  constructor
  · rw [h37]
    linarith
  · rw [remaining, remaining, h37, show max 0 ((1000 : ℤ) - 0) = 1000 from by decide]
    have hR : trunc (((1000 : ℤ) : ℝ) * (77499 / 216250)) = 358 := by
      rw [trunc, if_pos (by push_cast; norm_num)]
      rw [Int.floor_eq_iff]
      constructor <;> push_cast <;> norm_num
    have hL : trunc (((1000 : ℤ) : ℝ)
        * ratioOf TimeType.OptimumTime 16000 1000 1000 0 119 0) ≤ 240 := by
      apply trunc_le_of_le (by norm_num)
      push_cast
      nlinarith [h119]
    rw [hR]
    linarith

/-! ### C8: shape of the movesToGo profile -/

/-- The unimodal kernel `mn * exp(-0.052 * mn)` of the movesToGo profile. -/
noncomputable def gcurve (mn : ℤ) : ℝ :=
  (mn : ℝ) * Real.exp (-0.052 * (mn : ℝ))

lemma exp_neg_52_lb : (0.948 : ℝ) ≤ Real.exp (-0.052) := by
  have := Real.add_one_le_exp (-0.052 : ℝ)
  linarith

lemma exp_neg_52_ub : Real.exp (-0.052) ≤ 250000 / 263169 := by
  have h1 : (1.026 : ℝ) ≤ Real.exp 0.026 := by
    have := Real.add_one_le_exp (0.026 : ℝ)
    linarith
  have h2 : (263169 / 250000 : ℝ) ≤ Real.exp 0.052 := by
    have he : Real.exp (0.052 : ℝ) = Real.exp 0.026 * Real.exp 0.026 := by
      rw [← Real.exp_add]
      norm_num
    rw [he]
    nlinarith [Real.exp_pos (0.026 : ℝ)]
  rw [show Real.exp (-0.052 : ℝ) = (Real.exp 0.052)⁻¹ from Real.exp_neg _,
    show (250000 / 263169 : ℝ) = ((263169 / 250000 : ℝ))⁻¹ from by norm_num]
  exact inv_anti₀ (by norm_num) h2

lemma gcurve_succ (mn : ℤ) :
    gcurve (mn + 1) = ((mn : ℝ) + 1) * Real.exp (-0.052 * (mn : ℝ)) * Real.exp (-0.052) := by
  rw [gcurve]
  push_cast
  rw [show (-0.052 : ℝ) * ((mn : ℝ) + 1) = -0.052 * (mn : ℝ) + -0.052 from by ring,
    Real.exp_add]
  ring

lemma gcurve_step_up {mn : ℤ} (h1 : 1 ≤ mn) (h2 : mn ≤ 18) :
    gcurve mn ≤ gcurve (mn + 1) := by
  rw [gcurve, gcurve_succ]
  have hm1 : (1 : ℝ) ≤ (mn : ℝ) := by exact_mod_cast h1
  have hm2 : (mn : ℝ) ≤ 18 := by exact_mod_cast h2
  have he : (0 : ℝ) < Real.exp (-0.052 * (mn : ℝ)) := Real.exp_pos _
  have key : (mn : ℝ) ≤ ((mn : ℝ) + 1) * Real.exp (-0.052) := by
    have h948 : (mn : ℝ) ≤ ((mn : ℝ) + 1) * 0.948 := by nlinarith
    have hmul : ((mn : ℝ) + 1) * 0.948 ≤ ((mn : ℝ) + 1) * Real.exp (-0.052) :=
      mul_le_mul_of_nonneg_left exp_neg_52_lb (by linarith)
    linarith
  calc (mn : ℝ) * Real.exp (-0.052 * (mn : ℝ))
      ≤ (((mn : ℝ) + 1) * Real.exp (-0.052)) * Real.exp (-0.052 * (mn : ℝ)) :=
        mul_le_mul_of_nonneg_right key he.le
    _ = ((mn : ℝ) + 1) * Real.exp (-0.052 * (mn : ℝ)) * Real.exp (-0.052) := by ring

lemma gcurve_step_down (mn : ℤ) (h1 : 19 ≤ mn) :
    gcurve (mn + 1) ≤ gcurve mn := by
  rw [gcurve_succ, gcurve]
  have hm1 : (19 : ℝ) ≤ (mn : ℝ) := by exact_mod_cast h1
  have he : (0 : ℝ) < Real.exp (-0.052 * (mn : ℝ)) := Real.exp_pos _
  have key : ((mn : ℝ) + 1) * Real.exp (-0.052) ≤ (mn : ℝ) := by
    have hmul : ((mn : ℝ) + 1) * Real.exp (-0.052)
        ≤ ((mn : ℝ) + 1) * (250000 / 263169) :=
      mul_le_mul_of_nonneg_left exp_neg_52_ub (by linarith)
    nlinarith
  calc ((mn : ℝ) + 1) * Real.exp (-0.052 * (mn : ℝ)) * Real.exp (-0.052)
      = (((mn : ℝ) + 1) * Real.exp (-0.052)) * Real.exp (-0.052 * (mn : ℝ)) := by ring
    _ ≤ (mn : ℝ) * Real.exp (-0.052 * (mn : ℝ)) := mul_le_mul_of_nonneg_right key he.le

lemma gcurve_le_peak_up : ∀ n : ℕ, ∀ mn : ℤ, 1 ≤ mn → mn + n = 19 → gcurve mn ≤ gcurve 19 := by
  intro n
  induction n with
  | zero =>
    intro mn h1 h2
    rw [show mn = 19 from by omega]
  | succ k ih =>
    intro mn h1 h2
    have hle : mn ≤ 18 := by omega
    exact le_trans (gcurve_step_up h1 hle) (ih (mn + 1) (by omega) (by omega))

lemma gcurve_le_peak_down : ∀ n : ℕ, ∀ mn : ℤ, mn = 19 + n → gcurve mn ≤ gcurve 19 := by
  intro n
  induction n with
  | zero =>
    intro mn h
    rw [show mn = 19 from by omega]
  | succ k ih =>
    intro mn h
    have step := gcurve_step_down (mn - 1) (by omega)
    rw [show mn - 1 + 1 = mn from by ring] at step
    exact le_trans step (ih (mn - 1) (by omega))

lemma gcurve_le_peak {mn : ℤ} (h1 : 1 ≤ mn) : gcurve mn ≤ gcurve 19 := by
  rcases le_or_lt mn 19 with h | h
  · exact gcurve_le_peak_up (19 - mn).toNat mn h1 (by omega)
  · exact gcurve_le_peak_down (mn - 19).toNat mn (by omega)

lemma mtgWeight_eq_of_le {mn : ℤ} (h : mn ≤ 40) :
    mtgWeight mn = 0.45 + 0.064 * gcurve mn := by
  rw [mtgWeight, if_pos h, gcurve]
  ring

lemma mtgWeight_le_peak {mn : ℤ} (h1 : 1 ≤ mn) (h2 : mn ≤ 40) :
    mtgWeight mn ≤ mtgWeight 19 := by
  rw [mtgWeight_eq_of_le h2, mtgWeight_eq_of_le (show (19 : ℤ) ≤ 40 from by norm_num)]
  have := gcurve_le_peak h1
  linarith

lemma mtgWeight_19_lt : mtgWeight 19 < 1.5 := by
  rw [mtgWeight, if_pos (show (19 : ℤ) ≤ 40 from by norm_num)]
  have h1 : Real.exp (-0.052 * ((19 : ℤ) : ℝ)) ≤ 1 / 1.988 := by
    rw [show (-0.052 : ℝ) * ((19 : ℤ) : ℝ) = -0.988 from by push_cast; norm_num,
      show Real.exp (-0.988 : ℝ) = (Real.exp 0.988)⁻¹ from Real.exp_neg _,
      show (1 / 1.988 : ℝ) = ((1.988 : ℝ))⁻¹ from by norm_num]
    have h3 : (1.988 : ℝ) ≤ Real.exp 0.988 := by
      have := Real.add_one_le_exp (0.988 : ℝ)
      linarith
    exact inv_anti₀ (by norm_num) h3
  have h2 := Real.exp_pos (-0.052 * ((19 : ℤ) : ℝ))
  have hc : ((19 : ℤ) : ℝ) = 19 := by norm_num
  rw [hc] at h1 h2 ⊢
  nlinarith

lemma mtgWeight_gt40 {mn : ℤ} (h : 40 < mn) : mtgWeight 19 < mtgWeight mn := by
  have h2 : mtgWeight mn = 1.5 := by
    rw [mtgWeight, if_neg (show ¬ mn ≤ 40 from by omega)]
  rw [h2]
  exact mtgWeight_19_lt

lemma sdOf_of_mtg_ne_zero {m ply : ℤ} (h : m ≠ 0) : sdOf m ply = 8.5 := by
  rw [sdOf, if_pos h]

lemma tRatio_mtg_scaling (T : TimeType) (inpm ply npm : ℤ) :
    tRatioOf T inpm 1 ply npm = 40 * tRatioOf T inpm 40 ply npm := by
  rw [tRatioOf, tRatioOf, if_pos (show (1 : ℤ) ≠ 0 from by decide),
    if_pos (show (40 : ℤ) ≠ 0 from by decide)]
  push_cast
  ring

lemma ratio_mtg1_ge_mtg40 (T : TimeType) {inpm myTime myInc ply npm : ℤ}
    (ht : 0 ≤ myTime) (hi : 0 ≤ myInc) (hp : 0 ≤ ply) (hn : 0 ≤ npm) (hq : 0 < inpm) :
    ratioOf T inpm myTime myInc 40 ply npm ≤ ratioOf T inpm myTime myInc 1 ply npm := by
  rw [ratioOf, ratioOf, sdOf_of_mtg_ne_zero (show (40 : ℤ) ≠ 0 from by decide),
    sdOf_of_mtg_ne_zero (show (1 : ℤ) ≠ 0 from by decide)]
  have hF : 1 ≤ 1.0 + incUsageOf ply * (myInc : ℝ) / ((myTime : ℝ) * sdOf 1 ply) :=
    incFactor_ge_one myTime myInc 1 ply ht hi hp
  rw [sdOf_of_mtg_ne_zero (show (1 : ℤ) ≠ 0 from by decide)] at hF
  have hT40 := tRatioOf_nonneg T 40 (by norm_num) hp hn hq
  have hTle : tRatioOf T inpm 40 ply npm ≤ tRatioOf T inpm 1 ply npm := by
    rw [tRatio_mtg_scaling T inpm ply npm]
    linarith
  exact min_le_min le_rfl (mul_le_mul_of_nonneg_right hTle (by linarith))

/-- C8 (amended): within the first 40 moves the movesToGo profile attains its
maximum at move 19 (`mtgWeight mn ≤ mtgWeight 19` for `1 ≤ mn ≤ 40`), but for
every move number beyond 40 the profile is the constant `1.5`, which strictly
exceeds the peak value, so the profile is not globally maximal near moves
17–19; and the pre-clamp ratio scales inversely with `movesToGo`
(`movesToGo = 1` gives exactly 40 times the `movesToGo = 40` value, hence a
clamped ratio at least as large, for identical time, increment and ply). -/
theorem mtg_profile_peak_and_inverse_scaling (mn : ℤ) (h1 : 1 ≤ mn) (h2 : mn ≤ 40)
    (T : TimeType) (inpm myTime myInc ply npm : ℤ)
    (ht : 0 ≤ myTime) (hi : 0 ≤ myInc) (hp : 0 ≤ ply) (hn : 0 ≤ npm) (hq : 0 < inpm) :
    mtgWeight mn ≤ mtgWeight 19
    ∧ (∀ k : ℤ, 40 < k → mtgWeight 19 < mtgWeight k)
    ∧ tRatioOf T inpm 1 ply npm = 40 * tRatioOf T inpm 40 ply npm
    ∧ ratioOf T inpm myTime myInc 40 ply npm ≤ ratioOf T inpm myTime myInc 1 ply npm :=
  ⟨mtgWeight_le_peak h1 h2, fun _ hk => mtgWeight_gt40 hk,
    tRatio_mtg_scaling T inpm ply npm, ratio_mtg1_ge_mtg40 T ht hi hp hn hq⟩

/-- C8 witness: the peak bound at move 7 and the scaling facts at a concrete
checkpoint position. -/
theorem mtg_profile_peak_and_inverse_scaling_witness :
    (1 : ℤ) ≤ 7 ∧ (7 : ℤ) ≤ 40 ∧ (0 : ℤ) ≤ 60000 ∧ (0 : ℤ) ≤ 800 ∧ (0 : ℤ) ≤ 13
    ∧ (0 : ℤ) ≤ 9000 ∧ (0 : ℤ) < 16000
    ∧ (mtgWeight 7 ≤ mtgWeight 19
      ∧ (∀ k : ℤ, 40 < k → mtgWeight 19 < mtgWeight k)
      ∧ tRatioOf TimeType.OptimumTime 16000 1 13 9000
          = 40 * tRatioOf TimeType.OptimumTime 16000 40 13 9000
      ∧ ratioOf TimeType.OptimumTime 16000 60000 800 40 13 9000
          ≤ ratioOf TimeType.OptimumTime 16000 60000 800 1 13 9000) :=
  ⟨by decide, by decide, by decide, by decide, by decide, by decide, by decide,
    mtg_profile_peak_and_inverse_scaling 7 (by decide) (by decide) TimeType.OptimumTime
      16000 60000 800 13 9000 (by decide) (by decide) (by decide) (by decide) (by decide)⟩

/-- C8 counterexample: the profile value at move 41 (the constant `1.5` branch)
strictly exceeds the profile value at move 19, so the usage profile does not
attain its maximum around moves 17–19 and does not decay for every move number
further from that peak. -/
theorem mtg_profile_not_maximal_at_peak_window : mtgWeight 19 < mtgWeight 41 :=
  mtgWeight_gt40 (by norm_num)

end Timeman
